import Mathlib

/-!
Shallow embedding of the inventory, crafting, vote-regeneration and
messaging logic of `mln/models/dynamic.py` (with the catalog entities it
reads from `mln/models/static.py`).

Modelling conventions:
* A Django model row becomes a Lean structure; a queryset of rows becomes a
  `List` of such structures.  `Model.objects.get(field=x)` becomes
  `List.find?`, `filter(...)` becomes `List.filter`, `.exists()` becomes
  emptiness of the filtered list / `List.any`.
* A user's inventory (`user.inventory`, the reverse relation of
  `InventoryStack.owner`) is the list of that user's stacks; item ids are
  `Nat`.  Quantities are `Int`: Python integers are signed and none of the
  functions below validates signs, so the embedding must not either.
  (The database column is a `PositiveSmallIntegerField`, but Django performs
  no Python-level validation on `save()`.)
* Mutation is explicit state passing.  A Python function that can raise
  returns `Option MLNFailure × Inventory`: `(none, inv')` for normal return,
  `(some e, inv')` for an exception escaping with the mutations made so far
  persisted (each `save()` / `delete()` / `create()` commits immediately;
  no transaction wrapper appears in the source).
* `now()` is an instant passed explicitly, measured in integer microseconds
  (the resolution of `datetime.timedelta`); the two `now()` calls inside
  `update_available_votes` are modelled as the same instant.
-/

namespace MLN

/-- One inventory stack row: `Stack` (abstract, `static.py` line 66) as
specialised by `InventoryStack` (`dynamic.py` line 137) for a fixed owner:
an item id and a quantity. -/
structure Stack where
  item : Nat
  qty : Int
deriving DecidableEq, Repr

/-- A single user's inventory: their list of `InventoryStack` rows. -/
abbrev Inventory := List Stack

/-- `self.user.inventory.get(item_id=item_id)`: the stack of a given item,
if present.  (Django's `get` assumes at most one matching row — the
one-stack-per-(owner, item) invariant; theorems that need it carry a
`Nodup` hypothesis on the item ids.) -/
def getStack (inv : Inventory) (itemId : Nat) : Option Stack :=
  inv.find? (fun s => s.item == itemId)

/-- `stack.save()` after mutating a fetched stack: replace the row that was
fetched (the first one with this item id) by the updated record. -/
def saveStack : Inventory → Stack → Inventory
  | [], s' => [s']
  | s :: rest, s' => if s.item == s'.item then s' :: rest else s :: saveStack rest s'

/-- `stack.delete()`: remove the fetched row (the first one with this item
id) from the inventory. -/
def deleteStack : Inventory → Nat → Inventory
  | [], _ => []
  | s :: rest, i => if s.item == i then rest else s :: deleteStack rest i

/-- The quantity a user holds of an item, reading a missing stack as 0. -/
def qtyOf (inv : Inventory) (itemId : Nat) : Int :=
  ((getStack inv itemId).map Stack.qty).getD 0

/-- How many stack rows an inventory holds for one item (the invariant
says at most one). -/
def stackCount (inv : Inventory) (itemId : Nat) : Nat :=
  (inv.filter (fun s => s.item == itemId)).length

/-- The item ids of an inventory, in row order. -/
def invItems (inv : Inventory) : List Nat :=
  inv.map Stack.item

/-- The exceptions the functions of `dynamic.py` can raise, by source site.
The spec's error names map onto them as follows:
* `itemMissing` — Django `ObjectDoesNotExist` escaping
  `self.user.inventory.get(item_id=item_id)` in `remove_inv_item`
  (spec: `ItemMissing`);
* `insufficientQuantity` — the `ValueError` of `remove_inv_item` line 103
  (spec: `InsufficientQuantity`);
* `blueprintNotOwned` — `RuntimeError("Blueprint not in inventory")`,
  `use_blueprint` line 124 (spec: `BlueprintNotOwned`);
* `requirementsNotMet` — `RuntimeError("Blueprint requirements not met!")`,
  `use_blueprint` line 130 (spec: `BlueprintRequirementsNotMet`);
* `blueprintInfoMissing` — `ObjectDoesNotExist` escaping
  `BlueprintInfo.objects.get(item_id=blueprint_id)` at line 125. -/
inductive MLNFailure where
  | itemMissing
  | insufficientQuantity
  | blueprintNotOwned
  | requirementsNotMet
  | blueprintInfoMissing
deriving DecidableEq, Repr

/-- `Profile.add_inv_item` (`dynamic.py` lines 76–88): add to the existing
stack of the item, or create a new stack.  Returns the new inventory and the
resulting stack.  The source performs no validation of `qty` and cannot
fail. -/
def add_inv_item (inv : Inventory) (itemId : Nat) (qty : Int) : Inventory × Stack :=
  match getStack inv itemId with
  | some stack =>
    let stack' : Stack := { stack with qty := stack.qty + qty }
    (saveStack inv stack', stack')
  | none =>
    let stack : Stack := ⟨itemId, qty⟩
    (inv ++ [stack], stack)

/-- `Profile.remove_inv_item` (`dynamic.py` lines 90–103): fetch the stack
(raising if absent), then decrement / delete / raise according to the
comparison of its quantity with `qty`.  The failing branches mutate nothing,
so a failure is returned with the original inventory. -/
def remove_inv_item (inv : Inventory) (itemId : Nat) (qty : Int) :
    Option MLNFailure × Inventory :=
  match getStack inv itemId with
  | none => (some .itemMissing, inv)
  | some stack =>
    if stack.qty > qty then
      (none, saveStack inv { stack with qty := stack.qty - qty })
    else if stack.qty == qty then
      (none, deleteStack inv stack.item)
    else
      (some .insufficientQuantity, inv)

/-- A `BlueprintInfo` row (`static.py` lines 80–86): which item the
blueprint produces.  `item` is one-to-one, `build` is the produced item. -/
structure BlueprintInfo where
  item : Nat
  build : Nat
deriving DecidableEq, Repr

/-- A `BlueprintRequirement` row (`static.py` lines 88–94): a blueprint
item needs `qty` units of `item`. -/
structure BlueprintRequirement where
  blueprint_item : Nat
  item : Nat
  qty : Int
deriving DecidableEq, Repr

/-- The static catalog tables `use_blueprint` reads. -/
structure Catalog where
  blueprint_infos : List BlueprintInfo
  blueprint_requirements : List BlueprintRequirement
deriving DecidableEq, Repr

/-- `BlueprintInfo.objects.get(item_id=blueprint_id)` (`item` is a
one-to-one field, so at most one row matches). -/
def blueprintInfoGet (cat : Catalog) (blueprintId : Nat) : Option BlueprintInfo :=
  cat.blueprint_infos.find? (fun b => b.item == blueprintId)

/-- `BlueprintRequirement.objects.filter(blueprint_item_id=blueprint_id)`. -/
def requirementsOf (cat : Catalog) (blueprintId : Nat) : List BlueprintRequirement :=
  cat.blueprint_requirements.filter (fun r => r.blueprint_item == blueprintId)

/-- `self.user.inventory.filter(item_id=requirement.item_id,
qty__gte=requirement.qty).exists()`: some stack of the item holds at least
the required quantity. -/
def requirementMet (inv : Inventory) (r : BlueprintRequirement) : Bool :=
  inv.any (fun s => s.item == r.item && r.qty ≤ s.qty)

/-- The `# remove required items` loop of `use_blueprint` (lines 132–133):
remove each requirement in turn; an exception escaping `remove_inv_item`
aborts the loop, keeping the removals already made. -/
def removeRequirements (inv : Inventory) :
    List BlueprintRequirement → Option MLNFailure × Inventory
  | [] => (none, inv)
  | r :: rest =>
    match remove_inv_item inv r.item r.qty with
    | (none, inv') => removeRequirements inv' rest
    | (some e, inv') => (some e, inv')

/-- `Profile.use_blueprint` (`dynamic.py` lines 118–135): check the
blueprint is owned, fetch its `BlueprintInfo`, verify every requirement,
then remove the required items and add one newly built item. -/
def use_blueprint (cat : Catalog) (inv : Inventory) (blueprintId : Nat) :
    Option MLNFailure × Inventory :=
  if (inv.filter (fun s => s.item == blueprintId)).isEmpty then
    (some .blueprintNotOwned, inv)
  else
    match blueprintInfoGet cat blueprintId with
    | none => (some .blueprintInfoMissing, inv)
    | some blueprint_info =>
      let requirements := requirementsOf cat blueprintId
      if requirements.all (fun r => requirementMet inv r) then
        match removeRequirements inv requirements with
        | (none, inv') => (none, (add_inv_item inv' blueprint_info.build 1).1)
        | (some e, inv') => (some e, inv')
      else
        (some .requirementsNotMet, inv)

/-! ### Vote regeneration -/

/-- `DAY = datetime.timedelta(days=1)` in microseconds, the resolution of
`timedelta`. -/
def DAY_USEC : Int := 86400000000

/-- CPython's `_divide_and_round(a, b)` for `b > 0`, the rounding used by
`timedelta / int` (`DAY / max_votes`): floor division, rounding the half
case to even. -/
def divide_and_round (a b : Int) : Int :=
  let q := a.fdiv b
  let r := a.fmod b
  if 2 * r > b ∨ (2 * r = b ∧ q % 2 = 1) then q + 1 else q

/-- The fields of `Profile` (`dynamic.py` lines 46–71) that
`update_available_votes` touches: `rank` (default 0), `available_votes`
(default 20) and `last_vote_update_time` (microseconds). -/
structure Profile where
  rank : Nat
  available_votes : Int
  last_vote_update_time : Int
deriving DecidableEq, Repr

/-- `max_votes = 20 + 8 * self.rank` (`dynamic.py` line 111). -/
def max_votes (rank : Nat) : Int := 20 + 8 * (rank : Int)

/-- `DAY / max_votes` (`dynamic.py` line 112): one regeneration interval in
microseconds, as Python's `timedelta` division computes it. -/
def regen_interval (rank : Nat) : Int := divide_and_round DAY_USEC (max_votes rank)

/-- `Profile.update_available_votes` (`dynamic.py` lines 105–116): floor-
divide the elapsed time by the regeneration interval (Python's
`divmod(timedelta, timedelta)` floor-divides the microsecond counts); if at
least one new vote accrued, add the new votes capped at `max_votes` and
move `last_vote_update_time` to `now` minus the remainder. -/
def update_available_votes (p : Profile) (now : Int) : Profile :=
  let time_since_last_update := now - p.last_vote_update_time
  let interval := regen_interval p.rank
  let new_votes := time_since_last_update.fdiv interval
  let time_remainder := time_since_last_update.fmod interval
  if new_votes > 0 then
    { p with
        available_votes := min (p.available_votes + new_votes) (max_votes p.rank),
        last_vote_update_time := now - time_remainder }
  else
    p

/-- A `Profile` row created with the field defaults of `dynamic.py` lines
53–55: `rank = 0`, `available_votes = 20`, `last_vote_update_time = now`
(the creation instant `t`). -/
def defaultProfile (t : Int) : Profile :=
  { rank := 0, available_votes := 20, last_vote_update_time := t }

/-! ### Messages -/

/-- A `MessageBody` row (`static.py` lines 140–156), as far as the subject
computation needs it: an id and a subject. -/
structure MessageBody where
  id : Nat
  subject : String
deriving DecidableEq, Repr

/-- A `Message` row (`dynamic.py` lines 18–37): sender, recipient, body,
optional reply body, and the read flag whose field default is `False`. -/
structure Message where
  sender : Nat
  recipient : Nat
  body_id : Nat
  reply_body_id : Option Nat
  is_read : Bool := false
deriving DecidableEq, Repr

/-- Instantiating a `Message` without passing `is_read`, as every creation
site does: the field default `is_read = False` applies. -/
def newMessage (sender recipient body_id : Nat) (reply_body_id : Option Nat) : Message :=
  { sender, recipient, body_id, reply_body_id }

/-- Foreign-key dereference of a message body by id. -/
def bodyGet (bodies : List MessageBody) (bodyId : Nat) : Option MessageBody :=
  bodies.find? (fun b => b.id == bodyId)

/-- The displayed subject computed by `Message.__str__` (`dynamic.py` lines
32–37): `"RE: " + self.reply_body.subject` when `reply_body_id` is set,
else `self.body.subject`.  `none` models a dangling foreign key, which the
database forbids. -/
def messageSubject (bodies : List MessageBody) (m : Message) : Option String :=
  match m.reply_body_id with
  | some rid => (bodyGet bodies rid).map (fun b => "RE: " ++ b.subject)
  | none => (bodyGet bodies m.body_id).map (fun b => b.subject)

/-! ### Basic lemmas about inventory lookups and row updates -/

theorem getStack_item {inv : Inventory} {i : Nat} {s : Stack}
    (h : getStack inv i = some s) : s.item = i := by
  unfold getStack at h
  have hp := List.find?_some h
  exact eq_of_beq (by simpa using hp)

theorem getStack_mem {inv : Inventory} {i : Nat} {s : Stack}
    (h : getStack inv i = some s) : s ∈ inv :=
  List.mem_of_find?_eq_some h

theorem getStack_eq_none {inv : Inventory} {i : Nat} :
    getStack inv i = none ↔ ∀ s ∈ inv, s.item ≠ i := by
  unfold getStack
  rw [List.find?_eq_none]
  constructor
  · intro h s hs
    have := h s hs
    simpa using this
  · intro h s hs
    simpa using h s hs

theorem getStack_saveStack_self (inv : Inventory) (s' : Stack) :
    getStack (saveStack inv s') s'.item = some s' := by
  induction inv with
  | nil => simp [saveStack, getStack, List.find?]
  | cons x rest ih =>
    by_cases hx : x.item = s'.item
    · simp [saveStack, hx, getStack, List.find?]
    · have hbeq : (x.item == s'.item) = false := beq_false_of_ne hx
      simp only [saveStack, hbeq, Bool.false_eq_true, if_false]
      simpa [getStack, List.find?, hbeq] using ih

theorem getStack_saveStack_ne (inv : Inventory) (s' : Stack) {j : Nat}
    (h : j ≠ s'.item) : getStack (saveStack inv s') j = getStack inv j := by
  induction inv with
  | nil =>
    have : (s'.item == j) = false := beq_false_of_ne (Ne.symm h)
    simp [saveStack, getStack, List.find?, this]
  | cons x rest ih =>
    by_cases hx : x.item = s'.item
    · have hbeq : (x.item == s'.item) = true := beq_iff_eq.mpr hx
      have hxj : (x.item == j) = false := beq_false_of_ne (hx ▸ Ne.symm h)
      have hsj : (s'.item == j) = false := beq_false_of_ne (Ne.symm h)
      simp [saveStack, hbeq, getStack, List.find?, hxj, hsj]
    · have hbeq : (x.item == s'.item) = false := beq_false_of_ne hx
      by_cases hxj : x.item = j
      · simp [saveStack, hbeq, getStack, List.find?, beq_iff_eq.mpr hxj]
      · simp only [saveStack, hbeq, Bool.false_eq_true, if_false]
        have hxjb : (x.item == j) = false := beq_false_of_ne hxj
        simpa [getStack, List.find?, hxjb] using ih

theorem deleteStack_sublist (inv : Inventory) (i : Nat) :
    List.Sublist (deleteStack inv i) inv := by
  induction inv with
  | nil => simp [deleteStack]
  | cons x rest ih =>
    by_cases hx : x.item = i
    · simp only [deleteStack, beq_iff_eq.mpr hx, if_true]
      exact List.sublist_cons_self x rest
    · simp only [deleteStack, beq_false_of_ne hx, Bool.false_eq_true, if_false]
      exact ih.cons₂ x

theorem getStack_deleteStack_ne (inv : Inventory) (i : Nat) {j : Nat}
    (h : j ≠ i) : getStack (deleteStack inv i) j = getStack inv j := by
  induction inv with
  | nil => simp [deleteStack]
  | cons x rest ih =>
    by_cases hx : x.item = i
    · have hxj : (x.item == j) = false := beq_false_of_ne (hx ▸ Ne.symm h)
      simp [deleteStack, beq_iff_eq.mpr hx, getStack, List.find?, hxj]
    · simp only [deleteStack, beq_false_of_ne hx, Bool.false_eq_true, if_false]
      by_cases hxj : x.item = j
      · simp [getStack, List.find?, beq_iff_eq.mpr hxj]
      · simpa [getStack, List.find?, beq_false_of_ne hxj] using ih

theorem getStack_deleteStack_self (inv : Inventory) (i : Nat)
    (hnd : (invItems inv).Nodup) : getStack (deleteStack inv i) i = none := by
  induction inv with
  | nil => simp [deleteStack, getStack]
  | cons x rest ih =>
    rw [invItems, List.map_cons, List.nodup_cons] at hnd
    by_cases hx : x.item = i
    · simp only [deleteStack, beq_iff_eq.mpr hx, if_true]
      rw [getStack_eq_none]
      intro s hs hsi
      exact hnd.1 (hx ▸ hsi ▸ List.mem_map_of_mem Stack.item hs)
    · simp only [deleteStack, beq_false_of_ne hx, Bool.false_eq_true, if_false]
      have := ih hnd.2
      simpa [getStack, List.find?, beq_false_of_ne hx] using this

theorem getStack_append_ne (inv : Inventory) (s : Stack) {j : Nat}
    (h : j ≠ s.item) : getStack (inv ++ [s]) j = getStack inv j := by
  rw [getStack, List.find?_append]
  have : getStack [s] j = none := by
    simp [getStack, List.find?, beq_false_of_ne (Ne.symm h)]
  rw [getStack] at this
  rw [this, Option.or_none, getStack]

theorem invItems_saveStack (inv : Inventory) (s' : Stack)
    (h : (getStack inv s'.item).isSome) :
    invItems (saveStack inv s') = invItems inv := by
  induction inv with
  | nil => simp [getStack, List.find?] at h
  | cons x rest ih =>
    by_cases hx : x.item = s'.item
    · simp [saveStack, beq_iff_eq.mpr hx, invItems, hx]
    · have hbeq : (x.item == s'.item) = false := beq_false_of_ne hx
      have h' : (getStack rest s'.item).isSome := by
        simpa [getStack, List.find?, hbeq] using h
      simp only [saveStack, hbeq, Bool.false_eq_true, if_false]
      have ih' := ih h'
      unfold invItems at ih' ⊢
      rw [List.map_cons, List.map_cons, ih']

theorem getStack_of_mem {inv : Inventory} {s : Stack} {i : Nat}
    (hnd : (invItems inv).Nodup) (hmem : s ∈ inv) (hitem : s.item = i) :
    getStack inv i = some s := by
  induction inv with
  | nil => cases hmem
  | cons x rest ih =>
    rw [invItems, List.map_cons, List.nodup_cons] at hnd
    rcases List.mem_cons.mp hmem with rfl | hmem'
    · simp [getStack, List.find?, beq_iff_eq.mpr hitem]
    · have hx : x.item ≠ i := by
        intro hxi
        exact hnd.1 (hxi ▸ hitem ▸ List.mem_map_of_mem Stack.item hmem')
      simpa [getStack, List.find?, beq_false_of_ne hx] using ih hnd.2 hmem'

theorem invItems_nodup_saveStack {inv : Inventory} (s' : Stack)
    (hnd : (invItems inv).Nodup) (h : (getStack inv s'.item).isSome) :
    (invItems (saveStack inv s')).Nodup := by
  rw [invItems_saveStack inv s' h]
  exact hnd

theorem invItems_nodup_deleteStack {inv : Inventory} (i : Nat)
    (hnd : (invItems inv).Nodup) : (invItems (deleteStack inv i)).Nodup :=
  (((deleteStack_sublist inv i).map Stack.item).nodup) hnd

theorem getStack_none_not_mem_invItems {inv : Inventory} {i : Nat}
    (h : getStack inv i = none) : i ∉ invItems inv := by
  intro hmem
  obtain ⟨s, hs, hsi⟩ := List.mem_map.mp hmem
  exact (getStack_eq_none.mp h) s hs hsi

/-! ### Characterisation of `remove_inv_item` and `add_inv_item` -/

theorem remove_frame (inv : Inventory) (i : Nat) (q : Int) {j : Nat} (h : j ≠ i) :
    getStack (remove_inv_item inv i q).2 j = getStack inv j := by
  unfold remove_inv_item
  cases hg : getStack inv i with
  | none => rfl
  | some s =>
    have hsi : s.item = i := getStack_item hg
    by_cases h1 : s.qty > q
    · simpa [h1] using getStack_saveStack_ne inv { s with qty := s.qty - q } (by simpa [hsi] using h)
    · by_cases h2 : s.qty = q
      · simpa [h1, h2] using getStack_deleteStack_ne inv s.item (by simpa [hsi] using h)
      · simp [h1, beq_false_of_ne h2]

theorem remove_enough (inv : Inventory) {i : Nat} {q : Int} {s : Stack}
    (hnd : (invItems inv).Nodup) (hg : getStack inv i = some s) (henough : q ≤ s.qty) :
    (remove_inv_item inv i q).1 = none ∧
    (∀ j, qtyOf (remove_inv_item inv i q).2 j = qtyOf inv j - (if j = i then q else 0)) ∧
    ((invItems (remove_inv_item inv i q).2)).Nodup := by
  have hsi : s.item = i := getStack_item hg
  unfold remove_inv_item
  rw [hg]
  dsimp only
  by_cases h1 : s.qty > q
  · rw [if_pos h1]
    refine ⟨rfl, ?_, ?_⟩
    · intro j
      by_cases hj : j = i
      · subst hj
        have key : getStack (saveStack inv { s with qty := s.qty - q }) j = some { s with qty := s.qty - q } := by
          have := getStack_saveStack_self inv { s with qty := s.qty - q }
          simpa [hsi] using this
        simp [qtyOf, key, hg]
      · have key := getStack_saveStack_ne inv { s with qty := s.qty - q } (j := j)
          (by simpa [hsi] using hj)
        simp [qtyOf, key, hj]
    · exact invItems_nodup_saveStack _ hnd (by simp [hsi, hg])
  · have h2 : s.qty = q := le_antisymm (not_lt.mp h1) henough
    rw [if_neg h1, if_pos (show (s.qty == q) = true by simp [h2])]
    refine ⟨rfl, ?_, ?_⟩
    · intro j
      by_cases hj : j = i
      · subst hj
        have key : getStack (deleteStack inv s.item) j = none := by
          have := getStack_deleteStack_self inv s.item hnd
          simpa [hsi] using this
        rw [hsi] at key
        simp [qtyOf, hsi, key, hg, h2]
      · have key := getStack_deleteStack_ne inv s.item (j := j) (by simpa [hsi] using hj)
        simp [qtyOf, key, hj]
    · exact invItems_nodup_deleteStack _ hnd

theorem add_qtyOf (inv : Inventory) (b : Nat) (q : Int) (j : Nat) :
    qtyOf ((add_inv_item inv b q).1) j = qtyOf inv j + (if j = b then q else 0) := by
  unfold add_inv_item
  cases hg : getStack inv b with
  | some s =>
    have hsi : s.item = b := getStack_item hg
    by_cases hj : j = b
    · subst hj
      have key : getStack (saveStack inv { s with qty := s.qty + q }) j = some { s with qty := s.qty + q } := by
        have := getStack_saveStack_self inv { s with qty := s.qty + q }
        simpa [hsi] using this
      simp [qtyOf, key, hg]
    · have key := getStack_saveStack_ne inv { s with qty := s.qty + q } (j := j)
        (by simpa [hsi] using hj)
      simp [qtyOf, key, hj]
  | none =>
    by_cases hj : j = b
    · subst hj
      have key : getStack (inv ++ [(⟨j, q⟩ : Stack)]) j = some ⟨j, q⟩ := by
        rw [getStack, List.find?_append]
        rw [show List.find? (fun s => s.item == j) inv = none from hg]
        simp [List.find?]
      simp [qtyOf, key, hg]
    · have key := getStack_append_ne inv (⟨b, q⟩ : Stack) (j := j) (by simpa using hj)
      simp [qtyOf, key, hj]

theorem getStack_add_ne (inv : Inventory) (b : Nat) (q : Int) {j : Nat} (h : j ≠ b) :
    getStack ((add_inv_item inv b q).1) j = getStack inv j := by
  unfold add_inv_item
  cases hg : getStack inv b with
  | some s =>
    have hsi : s.item = b := getStack_item hg
    simpa using getStack_saveStack_ne inv { s with qty := s.qty + q } (j := j) (by simpa [hsi] using h)
  | none =>
    simpa using getStack_append_ne inv (⟨b, q⟩ : Stack) (j := j) (by simpa using h)

/-! ### Lemmas about the crafting requirement loop -/

theorem requirementMet_iff {inv : Inventory} {r : BlueprintRequirement}
    (hnd : (invItems inv).Nodup) :
    requirementMet inv r = true ↔
      ∃ s, getStack inv r.item = some s ∧ r.qty ≤ s.qty := by
  unfold requirementMet
  rw [List.any_eq_true]
  constructor
  · rintro ⟨s, hs, hp⟩
    rw [Bool.and_eq_true] at hp
    refine ⟨s, getStack_of_mem hnd hs (eq_of_beq hp.1), by simpa using hp.2⟩
  · rintro ⟨s, hg, hq⟩
    exact ⟨s, getStack_mem hg, by simp [getStack_item hg, hq]⟩

/-- The total quantity of an item consumed by a requirement list. -/
def reqQtyOf (reqs : List BlueprintRequirement) (i : Nat) : Int :=
  ((reqs.filter (fun r => r.item == i)).map BlueprintRequirement.qty).sum

theorem reqQtyOf_nil (i : Nat) : reqQtyOf [] i = 0 := rfl

theorem reqQtyOf_cons (r : BlueprintRequirement) (rest : List BlueprintRequirement) (i : Nat) :
    reqQtyOf (r :: rest) i = (if r.item = i then r.qty else 0) + reqQtyOf rest i := by
  by_cases h : r.item = i
  · simp [reqQtyOf, List.filter, beq_iff_eq.mpr h, h]
  · simp [reqQtyOf, List.filter, beq_false_of_ne h, h]

theorem removeRequirements_ok (reqs : List BlueprintRequirement) (inv : Inventory)
    (hnd : (invItems inv).Nodup)
    (hreqnd : (reqs.map BlueprintRequirement.item).Nodup)
    (hmet : ∀ r ∈ reqs, requirementMet inv r = true) :
    (removeRequirements inv reqs).1 = none ∧
    (∀ i, qtyOf (removeRequirements inv reqs).2 i = qtyOf inv i - reqQtyOf reqs i) ∧
    ((invItems (removeRequirements inv reqs).2)).Nodup := by
  induction reqs generalizing inv with
  | nil =>
    exact ⟨rfl, fun i => by simp [removeRequirements, reqQtyOf_nil], hnd⟩
  | cons r rest ih =>
    obtain ⟨s, hg, hq⟩ := (requirementMet_iff hnd).mp (hmet r (List.mem_cons_self r rest))
    obtain ⟨hok, hqty, hnd'⟩ := remove_enough inv hnd hg hq
    rw [List.map_cons, List.nodup_cons] at hreqnd
    set inv₁ := (remove_inv_item inv r.item r.qty).2 with hinv₁
    have hpair : remove_inv_item inv r.item r.qty = (none, inv₁) := by
      rw [hinv₁, ← hok]
    have hstep : removeRequirements inv (r :: rest) = removeRequirements inv₁ rest := by
      rw [removeRequirements, hpair]
    have hmet₁ : ∀ r' ∈ rest, requirementMet inv₁ r' = true := by
      intro r' hr'
      have hne : r'.item ≠ r.item := by
        intro he
        exact hreqnd.1 (he ▸ List.mem_map_of_mem BlueprintRequirement.item hr')
      obtain ⟨s', hg', hq'⟩ :=
        (requirementMet_iff hnd).mp (hmet r' (List.mem_cons_of_mem r hr'))
      refine (requirementMet_iff hnd').mpr ⟨s', ?_, hq'⟩
      rw [hinv₁, remove_frame inv r.item r.qty hne]
      exact hg'
    obtain ⟨hok₂, hqty₂, hnd₂⟩ := ih inv₁ hnd' hreqnd.2 hmet₁
    refine ⟨by rw [hstep]; exact hok₂, ?_, by rw [hstep]; exact hnd₂⟩
    intro i
    rw [hstep, hqty₂ i, hqty i, reqQtyOf_cons]
    have : (if i = r.item then r.qty else 0) = (if r.item = i then r.qty else 0) := by
      by_cases h : i = r.item
      · simp [h]
      · rw [if_neg h, if_neg (fun he => h he.symm)]
    rw [this]
    ring

theorem removeRequirements_frame (reqs : List BlueprintRequirement) (inv : Inventory)
    {j : Nat} (h : ∀ r ∈ reqs, r.item ≠ j) :
    getStack (removeRequirements inv reqs).2 j = getStack inv j := by
  induction reqs generalizing inv with
  | nil => rfl
  | cons r rest ih =>
    have hfr : getStack (remove_inv_item inv r.item r.qty).2 j = getStack inv j :=
      remove_frame inv r.item r.qty (Ne.symm (h r (List.mem_cons_self r rest)))
    rcases hrm : remove_inv_item inv r.item r.qty with ⟨e, inv'⟩
    rw [hrm] at hfr
    cases e with
    | none =>
      rw [removeRequirements, hrm]
      rw [ih inv' (fun r' hr' => h r' (List.mem_cons_of_mem r hr'))]
      exact hfr
    | some e' =>
      rw [removeRequirements, hrm]
      exact hfr

/-! ### Stack counting -/

theorem stackCount_eq_countP (inv : Inventory) (i : Nat) :
    stackCount inv i = inv.countP (fun s => s.item == i) :=
  (List.countP_eq_length_filter _ _).symm

theorem stackCount_eq_count_invItems (inv : Inventory) (i : Nat) :
    stackCount inv i = (invItems inv).count i := by
  rw [stackCount_eq_countP, invItems, List.count, List.countP_map]
  rfl

theorem stackCount_one_of_mem {inv : Inventory} {i : Nat}
    (hnd : (invItems inv).Nodup) (h : (getStack inv i).isSome) :
    stackCount inv i = 1 := by
  rw [stackCount_eq_count_invItems]
  obtain ⟨s, hs⟩ := Option.isSome_iff_exists.mp h
  exact List.count_eq_one_of_mem hnd
    (getStack_item hs ▸ List.mem_map_of_mem Stack.item (getStack_mem hs))

theorem getStack_add_self (inv : Inventory) (b : Nat) (q : Int) :
    getStack ((add_inv_item inv b q).1) b = some (add_inv_item inv b q).2 := by
  unfold add_inv_item
  cases hg : getStack inv b with
  | some s =>
    have hsi : s.item = b := getStack_item hg
    have := getStack_saveStack_self inv { s with qty := s.qty + q }
    simpa [hsi] using this
  | none =>
    rw [getStack, List.find?_append]
    rw [show List.find? (fun s => s.item == b) inv = none from hg]
    simp [List.find?]

theorem add_result_stack (inv : Inventory) (b : Nat) (q : Int) :
    (add_inv_item inv b q).2 = ⟨b, qtyOf inv b + q⟩ := by
  unfold add_inv_item
  cases hg : getStack inv b with
  | some s =>
    have hsi : s.item = b := getStack_item hg
    simp [qtyOf, hg, hsi]
  | none => simp [qtyOf, hg]

theorem invItems_add (inv : Inventory) (b : Nat) (q : Int) :
    invItems ((add_inv_item inv b q).1) =
      if (getStack inv b).isSome then invItems inv else invItems inv ++ [b] := by
  unfold add_inv_item
  cases hg : getStack inv b with
  | some s =>
    have hsi : s.item = b := getStack_item hg
    have := invItems_saveStack inv { s with qty := s.qty + q } (by simp [hsi, hg])
    simpa [hg] using this
  | none => simp [hg, invItems]

theorem invItems_nodup_add (inv : Inventory) (b : Nat) (q : Int)
    (hnd : (invItems inv).Nodup) : (invItems ((add_inv_item inv b q).1)).Nodup := by
  rw [invItems_add]
  cases hg : getStack inv b with
  | some s => simpa [hg] using hnd
  | none =>
    simp only [hg, Option.isSome_none, Bool.false_eq_true, if_false]
    rw [List.nodup_append]
    exact ⟨hnd, List.nodup_singleton b,
      by simpa using fun hmem => getStack_none_not_mem_invItems hg hmem⟩

/-! ### Claim theorems -/

/-- C3 counterexample: the claim says a call with `qty ≤ 0` fails with
`InvalidQuantity`, but `remove_inv_item` performs no quantity validation:
removing `qty = 0` from a stack of 5 succeeds (the `stack.qty > qty` branch
decrements by zero) and raises nothing. -/
theorem remove_inv_item_zero_qty_no_failure :
    (0 : Int) ≤ 0 ∧
    remove_inv_item [⟨1, 5⟩] 1 0 = (none, [⟨1, 5⟩]) := by decide

/-- C3 (amended): `remove_inv_item` fails `ItemMissing` when no stack of the
item exists; when a stack exists it decrements if its quantity exceeds
`qty`, deletes the stack if equal, and fails `InsufficientQuantity` with no
mutation if smaller.  No `qty ≤ 0` validation exists: a non-positive `qty`
is compared like any other (zero decrements by nothing, a negative value
increases the stack). -/
theorem remove_inv_item_spec (inv : Inventory) (i : Nat) (q : Int)
    (hnd : (invItems inv).Nodup) :
    (getStack inv i = none → remove_inv_item inv i q = (some .itemMissing, inv)) ∧
    (∀ s, getStack inv i = some s →
      (q < s.qty →
        (remove_inv_item inv i q).1 = none ∧
        qtyOf (remove_inv_item inv i q).2 i = s.qty - q ∧
        (∀ j, j ≠ i → getStack (remove_inv_item inv i q).2 j = getStack inv j)) ∧
      (s.qty = q →
        (remove_inv_item inv i q).1 = none ∧
        getStack (remove_inv_item inv i q).2 i = none ∧
        (∀ j, j ≠ i → getStack (remove_inv_item inv i q).2 j = getStack inv j)) ∧
      (s.qty < q → remove_inv_item inv i q = (some .insufficientQuantity, inv))) := by
  constructor
  · intro h
    unfold remove_inv_item
    rw [h]
  · intro s hs
    have hsi : s.item = i := getStack_item hs
    refine ⟨?_, ?_, ?_⟩
    · intro hlt
      obtain ⟨hok, hq, -⟩ := remove_enough inv hnd hs (le_of_lt hlt)
      refine ⟨hok, ?_, fun j hj => remove_frame inv i q hj⟩
      rw [hq i, if_pos rfl]
      simp [qtyOf, hs]
    · intro heq
      unfold remove_inv_item
      rw [hs]
      dsimp only
      rw [if_neg (by omega), if_pos (show (s.qty == q) = true by simp [heq])]
      refine ⟨rfl, ?_, ?_⟩
      · have := getStack_deleteStack_self inv s.item hnd
        simpa [hsi] using this
      · intro j hj
        exact getStack_deleteStack_ne inv s.item (by simpa [hsi] using hj)
    · intro hlt
      unfold remove_inv_item
      rw [hs]
      dsimp only
      rw [if_neg (by omega), if_neg (by simp [show s.qty ≠ q by omega])]

/-- C3 witness: on inventory `[⟨1,5⟩, ⟨2,7⟩]`, removing exactly 7 of item 2
succeeds and deletes the stack, leaving item 1 untouched. -/
theorem remove_inv_item_spec_witness :
    (remove_inv_item [⟨1, 5⟩, ⟨2, 7⟩] 2 7).1 = none ∧
    getStack (remove_inv_item [⟨1, 5⟩, ⟨2, 7⟩] 2 7).2 2 = none ∧
    getStack (remove_inv_item [⟨1, 5⟩, ⟨2, 7⟩] 2 7).2 1 = getStack [⟨1, 5⟩, ⟨2, 7⟩] 1 := by
  have h := ((remove_inv_item_spec [⟨1, 5⟩, ⟨2, 7⟩] 2 7 (by decide)).2 ⟨2, 7⟩ rfl).2.1 rfl
  exact ⟨h.1, h.2.1, h.2.2 1 (by decide)⟩

/-- C4 counterexample: the claim says `add` with `qty ≤ 0` fails with
`InvalidQuantity` leaving the inventory unchanged, but `add_inv_item`
performs no validation: `qty = 0` creates a zero-quantity stack and
`qty = -3` decrements an existing stack, both succeeding. -/
theorem add_inv_item_nonpositive_no_failure :
    add_inv_item ([] : Inventory) 1 0 = ([⟨1, 0⟩], ⟨1, 0⟩) ∧
    ([⟨1, 0⟩] : Inventory) ≠ [] ∧
    add_inv_item [⟨1, 5⟩] 1 (-3) = ([⟨1, 2⟩], ⟨1, 2⟩) := by decide

/-- C4 (amended): `add_inv_item` never fails and performs no quantity
validation: for every `qty` (positive or not) it increments the existing
stack of the item by `qty`, or creates a stack of quantity `qty` when none
exists, returning the resulting stack; afterwards exactly one stack of the
item exists and no other item's stack changed. -/
theorem add_inv_item_spec (inv : Inventory) (i : Nat) (q : Int)
    (hnd : (invItems inv).Nodup) :
    (add_inv_item inv i q).2 = ⟨i, qtyOf inv i + q⟩ ∧
    getStack (add_inv_item inv i q).1 i = some ⟨i, qtyOf inv i + q⟩ ∧
    stackCount (add_inv_item inv i q).1 i = 1 ∧
    (∀ j, j ≠ i → getStack (add_inv_item inv i q).1 j = getStack inv j) := by
  refine ⟨add_result_stack inv i q, ?_, ?_, fun j hj => getStack_add_ne inv i q hj⟩
  · rw [getStack_add_self, add_result_stack]
  · exact stackCount_one_of_mem (invItems_nodup_add inv i q hnd)
      (by rw [getStack_add_self]; rfl)

/-- C4 witness: adding 4 of item 2 to `[⟨1,5⟩, ⟨2,7⟩]` returns the stack
`⟨2, 11⟩`, keeps exactly one stack of item 2, and leaves item 1 alone. -/
theorem add_inv_item_spec_witness :
    (add_inv_item [⟨1, 5⟩, ⟨2, 7⟩] 2 4).2 = ⟨2, 7 + 4⟩ ∧
    stackCount (add_inv_item [⟨1, 5⟩, ⟨2, 7⟩] 2 4).1 2 = 1 ∧
    getStack (add_inv_item [⟨1, 5⟩, ⟨2, 7⟩] 2 4).1 1 = getStack [⟨1, 5⟩, ⟨2, 7⟩] 1 := by
  have h := add_inv_item_spec [⟨1, 5⟩, ⟨2, 7⟩] 2 4 (by decide)
  exact ⟨h.1, h.2.2.1, h.2.2.2 1 (by decide)⟩

/-- C6: starting from an inventory with no stack of item `i`, adding `q1`
and then `q2` of `i` (both positive) leaves exactly one stack of `i`, of
quantity `q1 + q2`. -/
theorem add_add_single_stack (inv : Inventory) (i : Nat) (q1 q2 : Int)
    (hnd : (invItems inv).Nodup) (h0 : getStack inv i = none)
    (h1 : 0 < q1) (h2 : 0 < q2) :
    stackCount ((add_inv_item ((add_inv_item inv i q1).1) i q2).1) i = 1 ∧
    getStack ((add_inv_item ((add_inv_item inv i q1).1) i q2).1) i = some ⟨i, q1 + q2⟩ := by
  have hq0 : qtyOf inv i = 0 := by simp [qtyOf, h0]
  have hnd1 : (invItems ((add_inv_item inv i q1).1)).Nodup := invItems_nodup_add inv i q1 hnd
  have hq1 : qtyOf ((add_inv_item inv i q1).1) i = q1 := by
    rw [add_qtyOf, hq0, if_pos rfl]
    ring
  constructor
  · exact stackCount_one_of_mem (invItems_nodup_add _ i q2 hnd1)
      (by rw [getStack_add_self]; rfl)
  · rw [getStack_add_self, add_result_stack, hq1]

/-- C6 witness: two adds of 3 then 4 of item 9 to the inventory `[⟨1,5⟩]`
yield a single stack `⟨9, 7⟩`. -/
theorem add_add_single_stack_witness :
    stackCount ((add_inv_item ((add_inv_item [⟨1, 5⟩] 9 3).1) 9 4).1) 9 = 1 ∧
    getStack ((add_inv_item ((add_inv_item [⟨1, 5⟩] 9 3).1) 9 4).1) 9 = some ⟨9, 3 + 4⟩ :=
  add_add_single_stack [⟨1, 5⟩] 9 3 4 (by decide) rfl (by decide) (by decide)

/-- C2: `use_blueprint`'s verify phase fails without mutating.  If the
owner holds no stack of the blueprint item, the call fails
`BlueprintNotOwned` with the inventory unchanged; if the blueprint is held
and its `BlueprintInfo` exists but some requirement's stack holds less than
the required quantity, the call fails `BlueprintRequirementsNotMet` with
the inventory unchanged. -/
theorem use_blueprint_verify_failures (cat : Catalog) (inv : Inventory) (bid : Nat)
    (hnd : (invItems inv).Nodup) :
    (getStack inv bid = none →
      use_blueprint cat inv bid = (some .blueprintNotOwned, inv)) ∧
    (∀ info, blueprintInfoGet cat bid = some info →
      (getStack inv bid).isSome →
      (∃ r ∈ requirementsOf cat bid, ∃ s, getStack inv r.item = some s ∧ s.qty < r.qty) →
      use_blueprint cat inv bid = (some .requirementsNotMet, inv)) := by
  constructor
  · intro h
    have hfil : inv.filter (fun s => s.item == bid) = [] := by
      rw [List.filter_eq_nil_iff]
      intro s hs
      simpa using getStack_eq_none.mp h s hs
    unfold use_blueprint
    rw [if_pos (by rw [hfil]; rfl)]
  · intro info hinfo hsome hshort
    obtain ⟨sb, hsb⟩ := Option.isSome_iff_exists.mp hsome
    have hfil : (inv.filter (fun s => s.item == bid)).isEmpty = false := by
      have hmem : sb ∈ inv.filter (fun s => s.item == bid) :=
        List.mem_filter.mpr ⟨getStack_mem hsb, by simp [getStack_item hsb]⟩
      cases hfe : inv.filter (fun s => s.item == bid) with
      | nil => rw [hfe] at hmem; cases hmem
      | cons a l => rfl
    have hall : (requirementsOf cat bid).all (fun r => requirementMet inv r) = false := by
      rw [Bool.eq_false_iff]
      intro hall
      obtain ⟨r, hr, s, hgs, hlt⟩ := hshort
      obtain ⟨s', hgs', hq'⟩ :=
        (requirementMet_iff hnd).mp (List.all_eq_true.mp hall r hr)
      rw [hgs] at hgs'
      cases hgs'
      omega
    unfold use_blueprint
    rw [if_neg (by rw [hfil]; exact Bool.false_ne_true), hinfo]
    dsimp only
    rw [if_neg (by rw [hall]; exact Bool.false_ne_true)]

/-- C2 witness: the spec's scenario.  Blueprint 10 requires 2 of item 20
and 1 of item 21; the owner holds the blueprint and a single item 20, so
the craft fails `BlueprintRequirementsNotMet` and the inventory is
unchanged; an owner without the blueprint fails `BlueprintNotOwned`. -/
theorem use_blueprint_verify_failures_witness :
    use_blueprint ⟨[⟨10, 30⟩], [⟨10, 20, 2⟩, ⟨10, 21, 1⟩]⟩ [⟨10, 1⟩, ⟨20, 1⟩] 10 =
      (some .requirementsNotMet, [⟨10, 1⟩, ⟨20, 1⟩]) ∧
    use_blueprint ⟨[⟨10, 30⟩], [⟨10, 20, 2⟩, ⟨10, 21, 1⟩]⟩ [⟨20, 1⟩] 10 =
      (some .blueprintNotOwned, [⟨20, 1⟩]) := by
  constructor
  · exact (use_blueprint_verify_failures ⟨[⟨10, 30⟩], [⟨10, 20, 2⟩, ⟨10, 21, 1⟩]⟩
      [⟨10, 1⟩, ⟨20, 1⟩] 10 (by decide)).2 ⟨10, 30⟩ rfl rfl
      ⟨⟨10, 20, 2⟩, by decide, ⟨20, 1⟩, rfl, by decide⟩
  · exact (use_blueprint_verify_failures ⟨[⟨10, 30⟩], [⟨10, 20, 2⟩, ⟨10, 21, 1⟩]⟩
      [⟨20, 1⟩] 10 (by decide)).1 rfl

/-- C1 counterexample: a blueprint whose requirement list names the same
item twice (2 of item 20 and 3 of item 20) passes verification against a
stack of 4, then fails mid-commit: the first removal leaves 2, the second
needs 3 and raises, and the partial deduction (4 → 2) persists while a
failure is returned — neither full success nor an unchanged inventory. -/
theorem use_blueprint_duplicate_requirement_partial_deduction :
    use_blueprint ⟨[⟨10, 30⟩], [⟨10, 20, 2⟩, ⟨10, 20, 3⟩]⟩ [⟨10, 1⟩, ⟨20, 4⟩] 10 =
      (some .insufficientQuantity, [⟨10, 1⟩, ⟨20, 2⟩]) ∧
    ([⟨10, 1⟩, ⟨20, 2⟩] : Inventory) ≠ [⟨10, 1⟩, ⟨20, 4⟩] := by decide

/-- C1 (amended): provided the blueprint's requirement list names each item
at most once, `use_blueprint` is all-or-nothing: either it returns no
failure and the final inventory holds, for every item, the starting
quantity minus that item's requirement plus one unit of the built item, or
it returns a failure and the inventory is exactly the starting one.  (With
duplicate requirement rows for one item the commit phase can fail after
partial deduction, per the counterexample.) -/
theorem use_blueprint_all_or_nothing (cat : Catalog) (inv : Inventory) (bid : Nat)
    (hnd : (invItems inv).Nodup)
    (hreq : ((requirementsOf cat bid).map BlueprintRequirement.item).Nodup) :
    ((use_blueprint cat inv bid).1 = none →
      ∃ info, blueprintInfoGet cat bid = some info ∧
        ∀ i, qtyOf (use_blueprint cat inv bid).2 i =
          qtyOf inv i - reqQtyOf (requirementsOf cat bid) i +
            (if i = info.build then 1 else 0)) ∧
    (∀ e, (use_blueprint cat inv bid).1 = some e → (use_blueprint cat inv bid).2 = inv) := by
  unfold use_blueprint
  by_cases hempty : (inv.filter (fun s => s.item == bid)).isEmpty = true
  · rw [if_pos hempty]
    exact ⟨fun h => absurd h (by simp), fun e _ => rfl⟩
  · rw [if_neg hempty]
    cases hinfo : blueprintInfoGet cat bid with
    | none => exact ⟨fun h => absurd h (by simp), fun e _ => rfl⟩
    | some info =>
      dsimp only
      by_cases hall : (requirementsOf cat bid).all (fun r => requirementMet inv r) = true
      · rw [if_pos hall]
        obtain ⟨hok, hqty, -⟩ :=
          removeRequirements_ok (requirementsOf cat bid) inv hnd hreq
            (List.all_eq_true.mp hall)
        have hpair : removeRequirements inv (requirementsOf cat bid) =
            (none, (removeRequirements inv (requirementsOf cat bid)).2) := by
          rw [← hok]
        rw [hpair]
        refine ⟨fun _ => ⟨info, rfl, fun i => ?_⟩, fun e he => absurd he (by simp)⟩
        rw [add_qtyOf, hqty i]
      · rw [if_neg hall]
        exact ⟨fun h => absurd h (by simp), fun e _ => rfl⟩

/-- C1 witness: a successful craft (blueprint 10 needs 2 of item 20 and 1
of item 21, building item 30) deducts both requirements — item 21 drops
from 5 to 4 — and a failing craft (requirements not met) leaves the
inventory exactly as it was. -/
theorem use_blueprint_all_or_nothing_witness :
    qtyOf (use_blueprint ⟨[⟨10, 30⟩], [⟨10, 20, 2⟩, ⟨10, 21, 1⟩]⟩
      [⟨10, 1⟩, ⟨20, 2⟩, ⟨21, 5⟩] 10).2 21 = 4 ∧
    (use_blueprint ⟨[⟨10, 30⟩], [⟨10, 20, 2⟩, ⟨10, 21, 1⟩]⟩ [⟨10, 1⟩] 10).2 = [⟨10, 1⟩] := by
  constructor
  · obtain ⟨info, hinfo, hq⟩ :=
      (use_blueprint_all_or_nothing ⟨[⟨10, 30⟩], [⟨10, 20, 2⟩, ⟨10, 21, 1⟩]⟩
        [⟨10, 1⟩, ⟨20, 2⟩, ⟨21, 5⟩] 10 (by decide) (by decide)).1 (by decide)
    have hinfo' : info = ⟨10, 30⟩ := by
      have h30 : blueprintInfoGet ⟨[⟨10, 30⟩], [⟨10, 20, 2⟩, ⟨10, 21, 1⟩]⟩ 10 =
          some ⟨10, 30⟩ := rfl
      exact Option.some.inj (hinfo.symm.trans h30)
    rw [hq 21, hinfo']
    decide
  · exact (use_blueprint_all_or_nothing ⟨[⟨10, 30⟩], [⟨10, 20, 2⟩, ⟨10, 21, 1⟩]⟩
      [⟨10, 1⟩] 10 (by decide) (by decide)).2 .requirementsNotMet (by decide)

/-- C8 counterexample: nothing stops a catalog from listing the blueprint
item itself as a requirement.  Blueprint 10 requires 1 of item 10; holding
2 of item 10 the craft succeeds, and the blueprint stack's quantity drops
from 2 to 1 — the blueprint is consumed, contradicting the claim for every
successful craft. -/
theorem use_blueprint_consumes_blueprint_when_required :
    (use_blueprint ⟨[⟨10, 30⟩], [⟨10, 10, 1⟩]⟩ [⟨10, 2⟩] 10).1 = none ∧
    qtyOf [(⟨10, 2⟩ : Stack)] 10 = 2 ∧
    qtyOf (use_blueprint ⟨[⟨10, 30⟩], [⟨10, 10, 1⟩]⟩ [⟨10, 2⟩] 10).2 10 = 1 := by decide

/-- C8 (amended): whenever the blueprint item is neither one of its own
requirement items nor the built item, a craft — successful or not — leaves
the owner's stack of the blueprint item untouched (same stack, hence same
quantity); indeed only requirement stacks and the built item's stack are
ever written: every item that is neither a requirement item nor the built
item keeps its exact stack through every outcome of the call. -/
theorem use_blueprint_blueprint_stack_frame (cat : Catalog) (inv : Inventory) (bid : Nat)
    (hnotreq : ∀ r ∈ requirementsOf cat bid, r.item ≠ bid)
    (hnotbuild : ∀ info, blueprintInfoGet cat bid = some info → info.build ≠ bid) :
    getStack (use_blueprint cat inv bid).2 bid = getStack inv bid ∧
    qtyOf (use_blueprint cat inv bid).2 bid = qtyOf inv bid ∧
    (∀ i, (∀ r ∈ requirementsOf cat bid, r.item ≠ i) →
      (∀ info, blueprintInfoGet cat bid = some info → info.build ≠ i) →
      getStack (use_blueprint cat inv bid).2 i = getStack inv i) := by
  suffices h : ∀ i, (∀ r ∈ requirementsOf cat bid, r.item ≠ i) →
      (∀ info, blueprintInfoGet cat bid = some info → info.build ≠ i) →
      getStack (use_blueprint cat inv bid).2 i = getStack inv i by
    refine ⟨h bid hnotreq hnotbuild, ?_, h⟩
    rw [qtyOf, h bid hnotreq hnotbuild, qtyOf]
  intro i hri hbi
  unfold use_blueprint
  by_cases hempty : (inv.filter (fun s => s.item == bid)).isEmpty = true
  · rw [if_pos hempty]
  · rw [if_neg hempty]
    cases hinfo : blueprintInfoGet cat bid with
    | none => rfl
    | some info =>
      dsimp only
      by_cases hall : (requirementsOf cat bid).all (fun r => requirementMet inv r) = true
      · rw [if_pos hall]
        rcases hrr : removeRequirements inv (requirementsOf cat bid) with ⟨e, inv'⟩
        have hfr : getStack inv' i = getStack inv i := by
          have := removeRequirements_frame (requirementsOf cat bid) inv (j := i) hri
          rw [hrr] at this
          exact this
        cases e with
        | some e' => exact hfr
        | none =>
          dsimp only
          rw [getStack_add_ne inv' info.build 1
            (fun hb => hbi info hinfo hb.symm)]
          exact hfr
      · rw [if_neg hall]

/-- C8 witness: with blueprint 10 requiring 2 of item 20 and building item
30, a successful craft (from `[⟨10,1⟩, ⟨20,3⟩]`) and a failing one (from
`[⟨10,1⟩]`, requirements unmet) both leave the blueprint stack exactly as
it was, and the successful craft also leaves the unrelated item 99
untouched. -/
theorem use_blueprint_blueprint_stack_frame_witness :
    getStack (use_blueprint ⟨[⟨10, 30⟩], [⟨10, 20, 2⟩]⟩ [⟨10, 1⟩, ⟨20, 3⟩] 10).2 10 =
      getStack [⟨10, 1⟩, ⟨20, 3⟩] 10 ∧
    getStack (use_blueprint ⟨[⟨10, 30⟩], [⟨10, 20, 2⟩]⟩ [⟨10, 1⟩] 10).2 10 =
      getStack [⟨10, 1⟩] 10 ∧
    getStack (use_blueprint ⟨[⟨10, 30⟩], [⟨10, 20, 2⟩]⟩ [⟨10, 1⟩, ⟨20, 3⟩] 10).2 99 =
      getStack [⟨10, 1⟩, ⟨20, 3⟩] 99 :=
  ⟨(use_blueprint_blueprint_stack_frame ⟨[⟨10, 30⟩], [⟨10, 20, 2⟩]⟩ [⟨10, 1⟩, ⟨20, 3⟩] 10
      (by decide) (by decide)).1,
   (use_blueprint_blueprint_stack_frame ⟨[⟨10, 30⟩], [⟨10, 20, 2⟩]⟩ [⟨10, 1⟩] 10
      (by decide) (by decide)).1,
   (use_blueprint_blueprint_stack_frame ⟨[⟨10, 30⟩], [⟨10, 20, 2⟩]⟩ [⟨10, 1⟩, ⟨20, 3⟩] 10
      (by decide) (by decide)).2.2 99 (by decide) (by decide)⟩

/-- C5: `update_available_votes` implements the regeneration law.  With
`maxCapacity = 20 + 8 × rank` and `regenInterval = oneDay / maxCapacity`,
letting `newUnits` and `remainder` be the floor quotient and remainder of
the elapsed time by the interval: when `newUnits > 0` the available votes
become `min (available + newUnits) maxCapacity` and the last-update time
becomes `now - remainder`; when `newUnits = 0` nothing changes; and if
`available ≤ maxCapacity` held before the call it holds after it, however
much time elapsed. -/
theorem update_available_votes_spec (p : Profile) (t : Int) :
    (0 < (t - p.last_vote_update_time).fdiv (regen_interval p.rank) →
      update_available_votes p t =
        { rank := p.rank,
          available_votes :=
            min (p.available_votes +
              (t - p.last_vote_update_time).fdiv (regen_interval p.rank))
              (max_votes p.rank),
          last_vote_update_time :=
            t - (t - p.last_vote_update_time).fmod (regen_interval p.rank) }) ∧
    ((t - p.last_vote_update_time).fdiv (regen_interval p.rank) = 0 →
      update_available_votes p t = p) ∧
    (p.available_votes ≤ max_votes p.rank →
      (update_available_votes p t).available_votes ≤ max_votes p.rank) := by
  refine ⟨?_, ?_, ?_⟩
  · intro h
    unfold update_available_votes
    rw [if_pos h]
  · intro h
    unfold update_available_votes
    rw [if_neg (by omega)]
  · intro hle
    unfold update_available_votes
    by_cases h : 0 < (t - p.last_vote_update_time).fdiv (regen_interval p.rank)
    · rw [if_pos h]
      exact min_le_right _ _
    · rw [if_neg h]
      exact hle

/-- C5 witness: rank 0 (interval `oneDay / 20` microseconds), 3 votes,
elapsed 2.5 intervals: two votes regenerate and the half interval is kept
in the last-update time. -/
theorem update_available_votes_spec_witness :
    update_available_votes ⟨0, 3, 0⟩ 10800000000 =
      { rank := 0, available_votes := 5, last_vote_update_time := 8640000000 } :=
  ((update_available_votes_spec ⟨0, 3, 0⟩ 10800000000).1 (by decide)).trans (by decide)

/-- C7 counterexample: the spec's scenario labels rank 0 with maximum
capacity 28, but `max_votes` at rank 0 is `20 + 8 × 0 = 20`, not 28
(capacity 28 belongs to rank 1). -/
theorem rank_zero_capacity_twenty_not_28 :
    max_votes 0 = 20 ∧ max_votes 0 ≠ 28 := by decide

/-- C7 (amended): for rank 0 the maximum capacity is 20 and the
regeneration interval is `oneDay / 20 = 4320000000` microseconds; when the
elapsed time is 2.5 intervals (`10800000000` microseconds) and at least two
votes of headroom remain, `update_available_votes` adds exactly 2 votes and
sets the last-update time to `now` minus the leftover half interval. -/
theorem update_rank_zero_two_and_half_intervals (p : Profile) (t : Int)
    (hrank : p.rank = 0) (havail : p.available_votes ≤ 18)
    (helapsed : t - p.last_vote_update_time = 10800000000) :
    max_votes 0 = 20 ∧
    regen_interval 0 = 4320000000 ∧
    (10800000000 : Int) = 2 * 4320000000 + 2160000000 ∧
    (update_available_votes p t).available_votes = p.available_votes + 2 ∧
    (update_available_votes p t).last_vote_update_time = t - 2160000000 := by
  obtain ⟨r, a, l⟩ := p
  simp only at hrank havail helapsed
  subst hrank
  have hint : regen_interval 0 = 4320000000 := by decide
  have hdiv : (10800000000 : Int).fdiv 4320000000 = 2 := by decide
  have hmod : (10800000000 : Int).fmod 4320000000 = 2160000000 := by decide
  refine ⟨rfl, hint, by decide, ?_, ?_⟩
  · unfold update_available_votes
    dsimp only
    simp only [hint, helapsed, hdiv, hmod]
    rw [if_pos (by decide : (0 : Int) < 2)]
    simp only [max_votes]
    omega
  · unfold update_available_votes
    dsimp only
    simp only [hint, helapsed, hdiv, hmod]
    rw [if_pos (by decide : (0 : Int) < 2)]

/-- C7 witness: a rank-0 profile with 3 votes, updated 2.5 intervals after
its last update, ends with 5 votes and a half interval of carried-over
progress. -/
theorem update_rank_zero_two_and_half_intervals_witness :
    (update_available_votes ⟨0, 3, 0⟩ 10800000000).available_votes = 3 + 2 ∧
    (update_available_votes ⟨0, 3, 0⟩ 10800000000).last_vote_update_time =
      10800000000 - 2160000000 := by
  have h := update_rank_zero_two_and_half_intervals ⟨0, 3, 0⟩ 10800000000
    rfl (by decide) (by decide)
  exact ⟨h.2.2.2.1, h.2.2.2.2⟩

/-- C10: a `Profile` built from the field defaults has rank 0 and 20
available votes, which is exactly `max_votes 0`; therefore
`update_available_votes` never changes the available votes of such a
profile, no matter how much time has elapsed. -/
theorem default_profile_votes_never_increase (t u : Int) :
    (defaultProfile t).rank = 0 ∧
    (defaultProfile t).available_votes = 20 ∧
    max_votes 0 = 20 ∧
    (update_available_votes (defaultProfile t) u).available_votes = 20 := by
  refine ⟨rfl, rfl, by decide, ?_⟩
  unfold update_available_votes defaultProfile
  by_cases h : 0 < (u - t).fdiv (regen_interval 0)
  · rw [if_pos h]
    simp only [max_votes]
    omega
  · rw [if_neg h]

/-- C9: a `Message` created without passing the read flag gets the field
default `is_read = false`, and its displayed subject is
`"RE: " ++ (reply body's subject)` when a reply-body reference is set, else
the body's own subject. -/
theorem message_read_default_and_displayed_subject (s r bid : Nat)
    (reply : Option Nat) (bodies : List MessageBody) :
    (newMessage s r bid reply).is_read = false ∧
    (∀ rid b, reply = some rid → bodyGet bodies rid = some b →
      messageSubject bodies (newMessage s r bid reply) = some ("RE: " ++ b.subject)) ∧
    (∀ b, reply = none → bodyGet bodies bid = some b →
      messageSubject bodies (newMessage s r bid reply) = some b.subject) := by
  refine ⟨rfl, ?_, ?_⟩
  · intro rid b hr hb
    subst hr
    simp [messageSubject, newMessage, hb]
  · intro b hr hb
    subst hr
    simp [messageSubject, newMessage, hb]

/-- C9 witness: a fresh message whose body is 1 and whose reply body is 2
(subject "thanks") is unread and displays subject "RE: thanks"; without a
reply body it displays body 1's subject "hello". -/
theorem message_read_default_and_displayed_subject_witness :
    (newMessage 0 1 1 (some 2)).is_read = false ∧
    messageSubject [⟨1, "hello"⟩, ⟨2, "thanks"⟩] (newMessage 0 1 1 (some 2)) =
      some ("RE: " ++ "thanks") ∧
    messageSubject [⟨1, "hello"⟩, ⟨2, "thanks"⟩] (newMessage 0 1 1 none) =
      some "hello" :=
  ⟨(message_read_default_and_displayed_subject 0 1 1 (some 2)
      [⟨1, "hello"⟩, ⟨2, "thanks"⟩]).1,
   (message_read_default_and_displayed_subject 0 1 1 (some 2)
      [⟨1, "hello"⟩, ⟨2, "thanks"⟩]).2.1 2 ⟨2, "thanks"⟩ rfl rfl,
   (message_read_default_and_displayed_subject 0 1 1 none
      [⟨1, "hello"⟩, ⟨2, "thanks"⟩]).2.2 ⟨1, "hello"⟩ rfl rfl⟩

end MLN
